import Mathlib

/-!
Verification of the checksum-validated download cache of `misode/worldgen-tools`
(`src/downloader.ts`).  Byte buffers are modelled as strings; the file system,
the low-level transport and the caller-supplied transformer / serializer /
deserializer are oracles that may fail, so every theorem quantifies over all
of their behaviours.  Each fallible primitive is embedded in an explicit
exception monad `EM`, with `tcatch` mirroring each `try`/`catch` block of the
source, so that "never throws" is a real property of the outermost structure
and not a typing accident.
-/

/-- Node.js `Buffer`, modelled as a string of bytes. -/
abbrev Buffer := String

/-- Error kinds observable by the downloader: JavaScript errors whose `code`
is `ENOENT` (file does not exist) versus every other error. -/
inductive FsErr where
  | enoent
  | other
  deriving DecidableEq, Repr

/-- Modelled from the spec: `fileUtil.isEnoent` (the `fileUtil` module is
imported by `src/downloader.ts` but absent from `src/`) distinguishes the
"file does not exist" error kind from every other failure. -/
def isEnoent : FsErr → Bool
  | .enoent => true
  | .other => false

/-- Modelled from the spec: `fileUtil.bufferToString` (absent from `src/`)
decodes a byte buffer to text; with buffers modelled as strings it is the
identity. -/
def bufferToString (b : Buffer) : String := b

/-- JavaScript `s.slice(0, -1)`: all characters of `s` but the last. -/
def sliceDropLast (s : String) : String := String.mk s.toList.dropLast

/-- The read side of the checksum marker (`downloader.ts` lines 45-46):
decode the marker file and remove the ending newline. -/
def readMarker (b : Buffer) : String := sliceDropLast (bufferToString b)

/-- The write side of the checksum marker (`downloader.ts` line 82): the
checksum string followed by one newline character. -/
def markerContent (checksum : String) : Buffer := checksum ++ "\n"

/-- Node's `path.join(cacheRoot, id)`, modelled as separator concatenation. -/
def joinPath (root p : String) : String := root ++ "/" ++ p

/-- Log severities used by the downloader. -/
inductive Sev where
  | info
  | warn
  | error
  deriving DecidableEq, Repr

/-- Observable effects of one `download` call: low-level transport gets,
file-system reads, writes and unlinks, and log lines (tagged with the
message template of the corresponding `logger` call in the source). -/
inductive Event where
  | get (uri : String)
  | fsRead (path : String)
  | fsWrite (path : String) (content : Buffer)
  | fsUnlink (path : String)
  | log (sev : Sev) (tag : String)
  deriving DecidableEq, Repr

/-- The environment: behaviour of the file system and of the low-level
transport.  Every operation may fail, with `FsErr` recording whether the
failure is ENOENT-like. -/
structure World where
  readFile : String → Except FsErr Buffer
  writeFile : String → Buffer → Except FsErr Unit
  unlink : String → Except FsErr Unit
  get : String → Except FsErr Buffer

/-- The nested checksum job: `Omit<Job<string>, 'cache' | 'id'>` — by
construction it has no `cache` field. -/
structure ChecksumJob where
  uri : String
  transformer : Buffer → Except FsErr String

/-- The `cache` member of a `Job`. -/
structure CacheConfig where
  checksumJob : ChecksumJob
  checksumExtension : String
  serializer : Option (Buffer → Except FsErr Buffer) := none
  deserializer : Option (Buffer → Except FsErr Buffer) := none

/-- The `Job<R>` interface from `downloader.ts` (transport options are passed through
opaquely and omitted from the model). -/
structure Job (R : Type) where
  id : String
  uri : String
  cache : Option CacheConfig
  transformer : Buffer → Except FsErr R

/-- The `DownloaderDownloadOut` interface: the output side channel. -/
structure DownloadOut where
  cachePath : Option String := none
  checksum : Option String := none
  deriving DecidableEq, Repr

/-- A computation that may throw an `FsErr` and records its trace of
observable events. -/
abbrev EM (α : Type) := Except FsErr α × List Event

/-- Sequencing in `EM`: propagate a thrown error, accumulate events. -/
def ebind {α β : Type} : EM α → (α → EM β) → EM β
  | (.ok a, evs), f => ((f a).1, evs ++ (f a).2)
  | (.error e, evs), _ => (.error e, evs)

/-- A `try`/`catch` block: on a throw, the events up to the throw are kept
and the handler runs. -/
def tcatch {α : Type} : EM α → (FsErr → EM α) → EM α
  | (.ok a, evs), _ => (.ok a, evs)
  | (.error e, evs), h => ((h e).1, evs ++ (h e).2)

def pureE {α : Type} (a : α) : EM α := (.ok a, [])

def liftE {α : Type} (x : Except FsErr α) : EM α := (x, [])

def logE (sev : Sev) (tag : String) : EM Unit := (.ok (), [.log sev tag])

def readFileOp (w : World) (p : String) : EM Buffer := (w.readFile p, [.fsRead p])

def writeFileOp (w : World) (p : String) (b : Buffer) : EM Unit :=
  (w.writeFile p b, [.fsWrite p b])

def unlinkOp (w : World) (p : String) : EM Unit := (w.unlink p, [.fsUnlink p])

def getOp (w : World) (uri : String) : EM Buffer := (w.get uri, [.get uri])

/-- Defaulting of `cache.serializer ?? (b => b)` and `cache.deserializer ?? (b => b)`. -/
def applyOpt (f? : Option (Buffer → Except FsErr Buffer)) (b : Buffer) :
    Except FsErr Buffer :=
  match f? with
  | some f => f b
  | none => .ok b

/-- JavaScript `checksum === cacheChecksum` where `checksum` may be
`undefined`: an undefined checksum never matches. -/
def checksumMatches : Option String → String → Bool
  | some s, t => s == t
  | none, _ => false

/-- Lines 77-111 of `downloader.ts`: the real fetch, the best-effort cache
writes (marker only when the checksum is a truthy string), the transform of
the raw bytes, and on transport (or transform) failure the stale-cache
fallback.  `cacheInfo` carries `(cache, cachePath, cacheChecksumPath)` when
the job requested caching. -/
def fetchPhase {R : Type} (w : World) (uri : String)
    (transformer : Buffer → Except FsErr R)
    (cacheInfo : Option (CacheConfig × String × String))
    (checksum : Option String) : EM (Option R) :=
  tcatch
    (ebind (getOp w uri) fun buffer =>
      ebind
        (match cacheInfo with
          | some (c, cachePath, cacheChecksumPath) =>
            ebind
              (match checksum with
                | some cs =>
                  if cs ≠ "" then
                    tcatch (writeFileOp w cacheChecksumPath (markerContent cs))
                      (fun _ => logE .error "Saving cache checksum")
                  else pureE ()
                | none => pureE ()) fun _ =>
            tcatch
              (ebind (liftE (applyOpt c.serializer buffer)) fun ser =>
                writeFileOp w cachePath ser)
              (fun _ => logE .error "Caching file")
          | none => pureE ()) fun _ =>
      ebind (logE .info "Downloaded") fun _ =>
      ebind (liftE (transformer buffer)) fun v =>
      pureE (some v))
    (fun _ =>
      ebind (logE .error "Downloading") fun _ =>
      match cacheInfo with
      | some (c, cachePath, _) =>
        tcatch
          (ebind (readFileOp w cachePath) fun cachedBuffer =>
            ebind (liftE (applyOpt c.deserializer cachedBuffer)) fun data =>
            ebind (liftE (transformer data)) fun ans =>
            ebind (logE .warn "Fell back to cached file") fun _ =>
            pureE (some ans))
          (fun _ =>
            ebind (logE .error "Fallback: loading cached file") fun _ =>
            pureE none)
      | none => pureE none)

/-- The recursive `this.download({ ...checksumJob, id: id + checksumExtension })`
call: the nested job has no `cache`, so its execution is exactly the
no-cache fetch path. -/
def checksumFetch (w : World) (cj : ChecksumJob) : EM (Option String) :=
  fetchPhase w cj.uri cj.transformer none none

/-- Lines 43-75 of `downloader.ts`: resolve the current remote checksum through
the nested job, compare it with the on-disk marker, on a match try the
cached payload (deserialize, transform), on an ENOENT payload failure
best-effort unlink the stale marker.  Returns the resolved checksum and the
cache-hit value when the fast path returned. -/
def cachePhase {R : Type} (w : World) (c : CacheConfig)
    (cachePath cacheChecksumPath : String)
    (transformer : Buffer → Except FsErr R) : EM (Option String × Option R) :=
  tcatch
    (ebind (checksumFetch w c.checksumJob) fun checksum =>
      ebind
        (tcatch
          (ebind (readFileOp w cacheChecksumPath) fun markerBuf =>
            if checksumMatches checksum (readMarker markerBuf) then
              tcatch
                (ebind (readFileOp w cachePath) fun cachedBuffer =>
                  ebind (liftE (applyOpt c.deserializer cachedBuffer)) fun data =>
                  ebind (liftE (transformer data)) fun ans =>
                  ebind (logE .info "Skipped downloading thanks to cache") fun _ =>
                  pureE (some ans))
                (fun e =>
                  ebind (logE .error "Loading cached file") fun _ =>
                  ebind
                    (if isEnoent e then
                      tcatch (unlinkOp w cacheChecksumPath)
                        (fun _ => logE .error "Removing invalid cache checksum")
                    else pureE ()) fun _ =>
                  pureE (none : Option R))
            else pureE none)
          (fun e =>
            ebind (if isEnoent e then pureE () else logE .error "Loading cache checksum") fun _ =>
            pureE none)) fun hit =>
      pureE (checksum, hit))
    (fun _ =>
      ebind (logE .error "Fetching latest checksum") fun _ =>
      pureE (none, none))

/-- The `Downloader.download` method (`downloader.ts` lines 33-112), with the cache
root as the `Downloader` constructor field and the final value of the `out`
side channel returned alongside the result. -/
def downloadE {R : Type} (cacheRoot : String) (w : World) (j : Job R)
    (out0 : DownloadOut) : EM (Option R × DownloadOut) :=
  match j.cache with
  | none =>
    ebind (fetchPhase w j.uri j.transformer none none) fun v => pureE (v, out0)
  | some c =>
    let cachePath := joinPath cacheRoot j.id
    let cacheChecksumPath := joinPath cacheRoot (j.id ++ c.checksumExtension)
    ebind (cachePhase w c cachePath cacheChecksumPath j.transformer) fun r =>
    let out1 : DownloadOut := { cachePath := some cachePath, checksum := r.1 }
    match r.2 with
    | some v => pureE (some v, out1)
    | none =>
      ebind (fetchPhase w j.uri j.transformer (some (c, cachePath, cacheChecksumPath)) r.1)
        fun v => pureE (v, out1)

/-- The nested checksum job, re-packed as a full `Job` the way
`download({ ...checksumJob, id: id + checksumExtension })` builds it: its
type has no `cache` field, so the rebuilt job's `cache` is `none`. -/
def checksumAsJob (id : String) (cj : ChecksumJob) : Job String :=
  { id := id, uri := cj.uri, cache := none, transformer := cj.transformer }

/-- Recognizer for transport-get events. -/
def isGetEv : Event → Bool
  | .get _ => true
  | _ => false

/-- The transport gets performed in a trace, in order. -/
def getsOf (evs : List Event) : List Event := evs.filter isGetEv

/-- Number of low-level transport invocations in a trace. -/
def countGets (evs : List Event) : Nat := (getsOf evs).length

/-- A JSON-serializable value (numbers restricted to integers; the fixture
record of the mock transport may hold such values). -/
inductive Json where
  | null
  | bool (b : Bool)
  | num (n : Int)
  | str (s : String)
  | arr (elems : List Json)
  | obj (fields : List (String × Json))

/-- Escaping of one character inside a JSON string literal. -/
def jsonEscapeChar (c : Char) : String :=
  if c = '"' then "\\\"" else if c = '\\' then "\\\\" else String.singleton c

def jsonEscape (s : String) : String := String.join (s.toList.map jsonEscapeChar)

mutual

/-- JavaScript `JSON.stringify` on the modelled JSON values. -/
def jsonStringify : Json → String
  | .null => "null"
  | .bool true => "true"
  | .bool false => "false"
  | .num n => toString n
  | .str s => "\"" ++ jsonEscape s ++ "\""
  | .arr xs => "[" ++ jsonStringifyList xs ++ "]"
  | .obj fs => "\x7b" ++ jsonStringifyFields fs ++ "\x7d"

def jsonStringifyList : List Json → String
  | [] => ""
  | [x] => jsonStringify x
  | x :: xs => jsonStringify x ++ "," ++ jsonStringifyList xs

def jsonStringifyFields : List (String × Json) → String
  | [] => ""
  | [(k, v)] => "\"" ++ jsonEscape k ++ "\":" ++ jsonStringify v
  | (k, v) :: fs =>
    "\"" ++ jsonEscape k ++ "\":" ++ jsonStringify v ++ "," ++ jsonStringifyFields fs

end

/-- A fixture value of the mock transport: `string | Buffer | object`. -/
inductive Fixture where
  | buffer (b : Buffer)
  | str (s : String)
  | obj (value : Json)

/-- The `LowLevelDownloaderMockOptions` interface: a record from URIs to fixture data. -/
structure LowLevelDownloaderMockOptions where
  fixtures : List (String × Fixture)

/-- JavaScript record lookup `fixtures[uri]`. -/
def findFixture (fixtures : List (String × Fixture)) (uri : String) : Option Fixture :=
  (fixtures.find? fun p => p.1 == uri).map fun p => p.2

/-- JavaScript truthiness of `this.options.fixtures[uri]` when a fixture is
present: `Buffer`s and objects are always truthy, a string is truthy exactly
when it is non-empty. -/
def fixtureTruthy : Fixture → Bool
  | .buffer _ => true
  | .str s => s ≠ ""
  | .obj _ => true

/-- The bytes the mock returns for a fixture: a `Buffer` unchanged, a string
UTF-8 encoded (the identity with buffers modelled as strings), an object
JSON-stringified then UTF-8 encoded. -/
def encodeFixture : Fixture → Buffer
  | .buffer b => b
  | .str s => s
  | .obj v => jsonStringify v

/-- The `LowLevelDownloaderMock.get` method (`downloader.ts` lines 189-205): throw
`404 not found` when `!this.options.fixtures[uri]`, otherwise encode the
fixture. -/
def mockGet (options : LowLevelDownloaderMockOptions) (uri : String) :
    Except String Buffer :=
  match findFixture options.fixtures uri with
  | none => .error ("404 not found: " ++ uri)
  | some fixture =>
    if fixtureTruthy fixture then .ok (encodeFixture fixture)
    else .error ("404 not found: " ++ uri)

deriving instance DecidableEq for Except

/-- Recognizer for file-write events. -/
def isWriteEv : Event → Bool
  | .fsWrite _ _ => true
  | _ => false

/-- Recognizer for unlink events. -/
def isUnlinkEv : Event → Bool
  | .fsUnlink _ => true
  | _ => false

/-- The file writes performed in a trace, in order. -/
def writesOf (evs : List Event) : List Event := evs.filter isWriteEv

/-- The unlinks performed in a trace, in order. -/
def unlinksOf (evs : List Event) : List Event := evs.filter isUnlinkEv

/-- Identity transformer used by the concrete test fixtures. -/
def okTr : Buffer → Except FsErr String := fun b => .ok b

/-- Concrete cache policy: checksum served from a dedicated URI. -/
def cacheA : CacheConfig :=
  { checksumJob := { uri := "https://cs", transformer := okTr },
    checksumExtension := ".cache" }

/-- Concrete cached job. -/
def jobA : Job String :=
  { id := "a", uri := "https://u", cache := some cacheA, transformer := okTr }

/-- Concrete cache policy whose checksum job shares the payload job's URI. -/
def cacheSame : CacheConfig :=
  { checksumJob := { uri := "https://u", transformer := okTr },
    checksumExtension := ".cache" }

/-- Cached job whose checksum URI equals its payload URI. -/
def jobSame : Job String :=
  { id := "a", uri := "https://u", cache := some cacheSame, transformer := okTr }

/-- Concrete uncached job. -/
def jobPlain : Job String :=
  { id := "a", uri := "https://u", cache := none, transformer := okTr }

/-- A world with a fresh marker `"abc\n"`, a cached payload, and a transport
that serves checksum `"abc"` and fresh payload bytes. -/
def worldHit : World :=
  { readFile := fun p =>
      if p = "root/a.cache" then .ok "abc\n"
      else if p = "root/a" then .ok "PAYLOAD"
      else .error .enoent,
    writeFile := fun _ _ => .ok (),
    unlink := fun _ => .ok (),
    get := fun u => if u = "https://cs" then .ok "abc" else .ok "FRESH" }

/-- Like `worldHit`, but every transport get serves the checksum bytes. -/
def worldHitSame : World :=
  { worldHit with get := fun _ => .ok "abc" }

/-- Like `worldHit`, but the payload transport is down. -/
def worldDown : World :=
  { worldHit with
    get := fun u => if u = "https://cs" then .ok "abc" else .error .other }

/-- Like `worldHit`, but the checksum transport is down. -/
def worldCsFail : World :=
  { worldHit with
    get := fun u => if u = "https://cs" then .error .other else .ok "FRESH" }

/-- Like `worldHit`, but the cached payload file is missing: the marker is a
dangling marker. -/
def worldDangling : World :=
  { worldHit with
    readFile := fun p =>
      if p = "root/a.cache" then .ok "abc\n" else .error .enoent }

/-- Like `worldHit`, but the stored marker is stale (`"old\n"`). -/
def worldMiss : World :=
  { worldHit with
    readFile := fun p =>
      if p = "root/a.cache" then .ok "old\n"
      else if p = "root/a" then .ok "PAYLOAD"
      else .error .enoent }

/-- A computation in `EM` that completed without throwing. -/
def emOk {α : Type} (x : EM α) : Prop := ∃ a evs, x = (.ok a, evs)

theorem emOk_pureE {α : Type} (a : α) : emOk (pureE a) := ⟨a, [], rfl⟩

theorem emOk_logE (sev : Sev) (tag : String) : emOk (logE sev tag) :=
  ⟨(), [.log sev tag], rfl⟩

theorem emOk_ebind {α β : Type} {x : EM α} {f : α → EM β}
    (hx : emOk x) (hf : ∀ a, emOk (f a)) : emOk (ebind x f) := by
  obtain ⟨a, evs, rfl⟩ := hx
  obtain ⟨b, evs', hb⟩ := hf a
  exact ⟨b, evs ++ evs', by simp [ebind, hb]⟩

theorem emOk_tcatch {α : Type} {x : EM α} {h : FsErr → EM α}
    (hh : ∀ e, emOk (h e)) : emOk (tcatch x h) := by
  obtain ⟨x1, evs⟩ := x
  cases x1 with
  | ok a => exact ⟨a, evs, rfl⟩
  | error e =>
    obtain ⟨a, evs', ha⟩ := hh e
    exact ⟨a, evs ++ evs', by simp [tcatch, ha]⟩

theorem emOk_unit {x : EM Unit} (hx : emOk x) : ∃ evs, x = (.ok (), evs) := by
  obtain ⟨a, evs, ha⟩ := hx
  exact ⟨evs, by simpa using ha⟩

theorem fetchPhase_emOk {R : Type} (w : World) (uri : String)
    (tr : Buffer → Except FsErr R) (ci : Option (CacheConfig × String × String))
    (cs : Option String) : emOk (fetchPhase w uri tr ci cs) := by
  unfold fetchPhase
  apply emOk_tcatch
  intro _
  apply emOk_ebind (emOk_logE _ _)
  intro _
  cases ci with
  | none => exact emOk_pureE _
  | some info =>
    obtain ⟨c, cp, ccp⟩ := info
    apply emOk_tcatch
    intro _
    exact emOk_ebind (emOk_logE _ _) fun _ => emOk_pureE _

theorem cachePhase_emOk {R : Type} (w : World) (c : CacheConfig)
    (cp ccp : String) (tr : Buffer → Except FsErr R) :
    emOk (cachePhase w c cp ccp tr) := by
  unfold cachePhase
  apply emOk_tcatch
  intro _
  exact emOk_ebind (emOk_logE _ _) fun _ => emOk_pureE _

/-- C1. For every job (with or without caching) and every behaviour of the
transport, file system, transformer, serializer and deserializer,
`Downloader.download` never throws: it always completes with `.ok`, carrying
either a value of type `R` or `none` (JavaScript `undefined`). -/
theorem download_never_throws {R : Type} (cacheRoot : String) (w : World)
    (j : Job R) (out0 : DownloadOut) :
    ∃ (v : Option R) (out : DownloadOut) (evs : List Event),
      downloadE cacheRoot w j out0 = (.ok (v, out), evs) := by
  have h : emOk (downloadE cacheRoot w j out0) := by
    unfold downloadE
    cases hc : j.cache with
    | none =>
      exact emOk_ebind (fetchPhase_emOk _ _ _ _ _) fun _ => emOk_pureE _
    | some c =>
      apply emOk_ebind (cachePhase_emOk _ _ _ _ _)
      intro r
      cases r.2 with
      | some v => exact emOk_pureE _
      | none =>
        exact emOk_ebind (fetchPhase_emOk _ _ _ _ _) fun _ => emOk_pureE _
  obtain ⟨⟨v, out⟩, evs, h⟩ := h
  exact ⟨v, out, evs, h⟩

/-- C7. Round trip of the checksum marker: `download` writes the marker as
the checksum followed by exactly one newline, and the marker read strips
exactly that trailing newline, so a written marker reads back equal to the
checksum. -/
theorem marker_round_trip (s : String) :
    markerContent s = s ++ "\n" ∧ readMarker (markerContent s) = s := by
  refine ⟨rfl, ?_⟩
  obtain ⟨data⟩ := s
  show String.mk (String.toList (String.mk data ++ String.mk ['\n'])).dropLast = String.mk data
  have happ : String.mk data ++ String.mk ['\n'] = String.mk (data ++ ['\n']) := rfl
  rw [happ]
  show String.mk (data ++ ['\n']).dropLast = String.mk data
  simp

theorem mem_ebind_left {α β : Type} {x : EM α} {f : α → EM β} {e : Event}
    (he : e ∈ x.2) : e ∈ (ebind x f).2 := by
  obtain ⟨x1, evs⟩ := x
  cases x1 with
  | ok a => exact List.mem_append_left _ he
  | error err => exact he

theorem mem_ebind_ok {α β : Type} {x : EM α} {f : α → EM β} {e : Event}
    {a : α} {evs : List Event} (hx : x = (.ok a, evs)) (he : e ∈ (f a).2) :
    e ∈ (ebind x f).2 := by
  subst hx
  exact List.mem_append_right _ he

theorem mem_tcatch_left {α : Type} {x : EM α} {h : FsErr → EM α} {e : Event}
    (he : e ∈ x.2) : e ∈ (tcatch x h).2 := by
  obtain ⟨x1, evs⟩ := x
  cases x1 with
  | ok a => exact he
  | error err => exact List.mem_append_left _ he

theorem checksumFetch_pos {w : World} {cj : ChecksumJob} {cb : Buffer} {s : String}
    (hg : w.get cj.uri = .ok cb) (ht : cj.transformer cb = .ok s) :
    checksumFetch w cj = (.ok (some s), [.get cj.uri, .log .info "Downloaded"]) := by
  simp [checksumFetch, fetchPhase, ebind, tcatch, getOp, logE, pureE, liftE, hg, ht]

theorem checksumFetch_getFail {w : World} {cj : ChecksumJob} {e : FsErr}
    (hg : w.get cj.uri = .error e) :
    checksumFetch w cj = (.ok none, [.get cj.uri, .log .error "Downloading"]) := by
  simp [checksumFetch, fetchPhase, ebind, tcatch, getOp, logE, pureE, liftE, hg]

theorem checksumFetch_trFail {w : World} {cj : ChecksumJob} {cb : Buffer} {e : FsErr}
    (hg : w.get cj.uri = .ok cb) (ht : cj.transformer cb = .error e) :
    checksumFetch w cj =
      (.ok none, [.get cj.uri, .log .info "Downloaded", .log .error "Downloading"]) := by
  simp [checksumFetch, fetchPhase, ebind, tcatch, getOp, logE, pureE, liftE, hg, ht]

theorem checksumFetch_shape (w : World) (cj : ChecksumJob) :
    ∃ (cs : Option String) (evs : List Event), checksumFetch w cj = (.ok cs, evs) := by
  obtain ⟨a, evs, ha⟩ := fetchPhase_emOk w cj.uri cj.transformer none none
  exact ⟨a, evs, ha⟩

/-- If the nested checksum job failed (returned `undefined`), an error with
the transport-failure message was logged during its execution. -/
theorem checksumFetch_none_logs {w : World} {cj : ChecksumJob} {e0 : List Event}
    (h : checksumFetch w cj = (.ok none, e0)) :
    Event.log .error "Downloading" ∈ e0 := by
  cases hg : w.get cj.uri with
  | error e =>
    rw [checksumFetch_getFail hg] at h
    cases h
    simp
  | ok cb =>
    cases ht : cj.transformer cb with
    | ok s =>
      rw [checksumFetch_pos hg ht] at h
      cases h
    | error e =>
      rw [checksumFetch_trFail hg ht] at h
      cases h
      simp

/-- Full characterization of the cache-hit fast path (`downloader.ts`
lines 44-53): fresh checksum resolved, marker read matches it, payload read,
deserialize and transform all succeed. -/
theorem cachePhase_hit {R : Type} {w : World} {c : CacheConfig} {cp ccp : String}
    {tr : Buffer → Except FsErr R} {cb mb pb db : Buffer} {s : String} {v : R}
    (hg : w.get c.checksumJob.uri = .ok cb)
    (ht : c.checksumJob.transformer cb = .ok s)
    (hm : w.readFile ccp = .ok mb)
    (hmark : readMarker mb = s)
    (hp : w.readFile cp = .ok pb)
    (hd : applyOpt c.deserializer pb = .ok db)
    (htr : tr db = .ok v) :
    cachePhase w c cp ccp tr =
      (.ok (some s, some v),
       [.get c.checksumJob.uri, .log .info "Downloaded", .fsRead ccp, .fsRead cp,
        .log .info "Skipped downloading thanks to cache"]) := by
  simp [cachePhase, checksumFetch_pos hg ht, ebind, tcatch, readFileOp, logE, pureE,
    liftE, hm, hmark, checksumMatches, hp, hd, htr]

/-- C2 (amended). For every cached job whose checksum job uses a different
URI than the payload job, if the checksum job succeeds with a value equal to
the stored marker (stripped of its trailing newline) and the cached payload
is readable, deserializes and transforms without error, then `download`
returns the transformed deserialized cached payload and the low-level
transport get for `job.uri` is never invoked. -/
theorem cache_hit_skips_transport {R : Type} {cacheRoot : String} {w : World}
    {j : Job R} {c : CacheConfig} {cb mb pb db : Buffer} {s : String} {v : R}
    (out0 : DownloadOut)
    (hc : j.cache = some c)
    (hne : c.checksumJob.uri ≠ j.uri)
    (hg : w.get c.checksumJob.uri = .ok cb)
    (ht : c.checksumJob.transformer cb = .ok s)
    (hm : w.readFile (joinPath cacheRoot (j.id ++ c.checksumExtension)) = .ok mb)
    (hmark : readMarker mb = s)
    (hp : w.readFile (joinPath cacheRoot j.id) = .ok pb)
    (hd : applyOpt c.deserializer pb = .ok db)
    (htr : j.transformer db = .ok v) :
    (downloadE cacheRoot w j out0).1 =
      .ok (some v,
        { cachePath := some (joinPath cacheRoot j.id), checksum := some s }) ∧
    Event.get j.uri ∉ (downloadE cacheRoot w j out0).2 := by
  have hcp := cachePhase_hit hg ht hm hmark hp hd htr
  rw [downloadE, hc]
  refine ⟨?_, ?_⟩
  · simp [hcp, ebind, pureE]
  · simp only [hcp, ebind, pureE]
    simp [Ne.symm hne]

theorem cache_hit_skips_transport_witness :
    (downloadE "root" worldHit jobA {}).1 =
      .ok (some "PAYLOAD",
        { cachePath := some (joinPath "root" "a"), checksum := some "abc" }) ∧
    Event.get jobA.uri ∉ (downloadE "root" worldHit jobA {}).2 :=
  cache_hit_skips_transport {} rfl (by decide) rfl rfl rfl rfl rfl rfl rfl

/-- C2 (counterexample). A cached job whose checksum job reuses `job.uri`
meets every cache-hit condition (checksum equals stored marker, cached
payload readable and transformed) yet the trace contains a low-level
transport get for `job.uri`, refuting the claim that this get is never
invoked. -/
theorem cache_hit_transport_counterexample :
    (downloadE "root" worldHitSame jobSame {}).1 =
      .ok (some "PAYLOAD",
        { cachePath := some "root/a", checksum := some "abc" }) ∧
    Event.get jobSame.uri ∈ (downloadE "root" worldHitSame jobSame {}).2 := by
  constructor
  · rfl
  · decide

/-- The stale-cache fallback (`downloader.ts` lines 96-109): the transport
failed, the cached payload is readable, deserializes and transforms. -/
theorem fetchPhase_fallback {R : Type} {w : World} {uri : String}
    {tr : Buffer → Except FsErr R} {c : CacheConfig} {cp ccp : String}
    {cs : Option String} {ef : FsErr} {pb db : Buffer} {v : R}
    (hgf : w.get uri = .error ef)
    (hp : w.readFile cp = .ok pb)
    (hd : applyOpt c.deserializer pb = .ok db)
    (htr : tr db = .ok v) :
    fetchPhase w uri tr (some (c, cp, ccp)) cs =
      (.ok (some v),
       [.get uri, .log .error "Downloading", .fsRead cp,
        .log .warn "Fell back to cached file"]) := by
  simp [fetchPhase, ebind, tcatch, getOp, readFileOp, logE, pureE, liftE, hgf, hp, hd, htr]

/-- When the cached payload is readable, deserializes and transforms to `v`,
the cache phase either hits with exactly `v` or does not hit at all. -/
theorem cachePhase_under_payload {R : Type} (w : World) (c : CacheConfig)
    (cp ccp : String) (tr : Buffer → Except FsErr R) {pb db : Buffer} {v : R}
    (hp : w.readFile cp = .ok pb)
    (hd : applyOpt c.deserializer pb = .ok db)
    (htr : tr db = .ok v) :
    ∃ (cs : Option String) (evs : List Event),
      cachePhase w c cp ccp tr = (.ok (cs, some v), evs) ∨
      cachePhase w c cp ccp tr = (.ok (cs, none), evs) := by
  obtain ⟨cs0, e0, h0⟩ := checksumFetch_shape w c.checksumJob
  cases hm : w.readFile ccp with
  | ok mb =>
    cases hcm : checksumMatches cs0 (readMarker mb) with
    | true =>
      refine ⟨cs0, e0 ++ [.fsRead ccp, .fsRead cp,
        .log .info "Skipped downloading thanks to cache"], Or.inl ?_⟩
      simp [cachePhase, h0, ebind, tcatch, readFileOp, logE, pureE, liftE, hm, hcm,
        hp, hd, htr]
    | false =>
      refine ⟨cs0, e0 ++ [.fsRead ccp], Or.inr ?_⟩
      simp [cachePhase, h0, ebind, tcatch, readFileOp, logE, pureE, liftE, hm, hcm]
  | error e =>
    cases he : isEnoent e with
    | true =>
      refine ⟨cs0, e0 ++ [.fsRead ccp], Or.inr ?_⟩
      simp [cachePhase, h0, ebind, tcatch, readFileOp, logE, pureE, liftE, hm, he]
    | false =>
      refine ⟨cs0, e0 ++ [.fsRead ccp, .log .error "Loading cache checksum"], Or.inr ?_⟩
      simp [cachePhase, h0, ebind, tcatch, readFileOp, logE, pureE, liftE, hm, he]

/-- C3. For every cached job, if the low-level transport get for `job.uri`
fails and the payload cache file is readable (whatever its checksum
freshness) and deserializer-then-transformer succeeds on its bytes, then
`download` returns that transformed deserialized cached payload, not
`undefined`. -/
theorem download_stale_fallback {R : Type} {cacheRoot : String} {w : World}
    {j : Job R} {c : CacheConfig} {ef : FsErr} {pb db : Buffer} {v : R}
    (out0 : DownloadOut)
    (hc : j.cache = some c)
    (hgf : w.get j.uri = .error ef)
    (hp : w.readFile (joinPath cacheRoot j.id) = .ok pb)
    (hd : applyOpt c.deserializer pb = .ok db)
    (htr : j.transformer db = .ok v) :
    ∃ cs, (downloadE cacheRoot w j out0).1 =
      .ok (some v,
        { cachePath := some (joinPath cacheRoot j.id), checksum := cs }) := by
  obtain ⟨cs, evs, hcp | hcp⟩ :=
    cachePhase_under_payload w c (joinPath cacheRoot j.id)
      (joinPath cacheRoot (j.id ++ c.checksumExtension)) j.transformer hp hd htr
  · exact ⟨cs, by rw [downloadE, hc]; simp [hcp, ebind, pureE]⟩
  · refine ⟨cs, ?_⟩
    rw [downloadE, hc]
    simp [hcp, ebind, pureE, fetchPhase_fallback hgf hp hd htr]

theorem download_stale_fallback_witness :
    ∃ cs, (downloadE "root" worldDown jobA {}).1 =
      .ok (some "PAYLOAD",
        { cachePath := some (joinPath "root" "a"), checksum := cs }) :=
  download_stale_fallback {} rfl rfl rfl rfl rfl

theorem writesOf_append (a b : List Event) :
    writesOf (a ++ b) = writesOf a ++ writesOf b := List.filter_append a b

theorem unlinksOf_append (a b : List Event) :
    unlinksOf (a ++ b) = unlinksOf a ++ unlinksOf b := List.filter_append a b

theorem checksumFetch_noWrites (w : World) (cj : ChecksumJob) :
    writesOf (checksumFetch w cj).2 = [] := by
  cases hg : w.get cj.uri with
  | ok cb =>
    cases ht : cj.transformer cb with
    | ok s => rw [checksumFetch_pos hg ht]; rfl
    | error e => rw [checksumFetch_trFail hg ht]; rfl
  | error e => rw [checksumFetch_getFail hg]; rfl

/-- When the nested checksum job returned `undefined`, the cache phase
cannot hit: it reads the marker (whose content can never match an undefined
checksum) and falls through, performing no writes. -/
theorem cachePhase_checksum_none {R : Type} (w : World) (c : CacheConfig)
    (cp ccp : String) (tr : Buffer → Except FsErr R) {e0 : List Event}
    (h0 : checksumFetch w c.checksumJob = (.ok none, e0)) :
    ∃ ec, cachePhase w c cp ccp tr = (.ok (none, none), e0 ++ ec) ∧
      writesOf ec = [] := by
  cases hm : w.readFile ccp with
  | ok mb =>
    refine ⟨[.fsRead ccp], ?_, rfl⟩
    simp [cachePhase, h0, ebind, tcatch, readFileOp, logE, pureE, liftE, hm,
      checksumMatches]
  | error e =>
    cases he : isEnoent e with
    | true =>
      refine ⟨[.fsRead ccp], ?_, rfl⟩
      simp [cachePhase, h0, ebind, tcatch, readFileOp, logE, pureE, liftE, hm, he]
    | false =>
      refine ⟨[.fsRead ccp, .log .error "Loading cache checksum"], ?_, rfl⟩
      simp [cachePhase, h0, ebind, tcatch, readFileOp, logE, pureE, liftE, hm, he]

/-- Successful cached fetch with no resolved checksum: the payload cache is
written (with the serialized bytes), no marker is written, and the transform
of the raw bytes is returned. -/
theorem fetchPhase_success_checksum_none {R : Type} (w : World) (uri : String)
    (tr : Buffer → Except FsErr R) (c : CacheConfig) (cp ccp : String)
    {b sb : Buffer} {v : R}
    (hg : w.get uri = .ok b)
    (hser : applyOpt c.serializer b = .ok sb)
    (htr : tr b = .ok v) :
    ∃ ef, fetchPhase w uri tr (some (c, cp, ccp)) none = (.ok (some v), ef) ∧
      writesOf ef = [.fsWrite cp sb] ∧ Event.get uri ∈ ef := by
  cases hw : w.writeFile cp sb with
  | ok u =>
    refine ⟨[.get uri, .fsWrite cp sb, .log .info "Downloaded"], ?_, rfl, by simp⟩
    simp [fetchPhase, ebind, tcatch, getOp, writeFileOp, logE, pureE, liftE,
      hg, hser, htr, hw]
  | error e =>
    refine ⟨[.get uri, .fsWrite cp sb, .log .error "Caching file",
      .log .info "Downloaded"], ?_, rfl, by simp⟩
    simp [fetchPhase, ebind, tcatch, getOp, writeFileOp, logE, pureE, liftE,
      hg, hser, htr, hw]

/-- C4. For every cached job, a failing nested checksum job is not fatal:
the transport-failure error is logged, the checksum is treated as unknown,
the cache-hit comparison cannot succeed, the real transport fetch for
`job.uri` is performed, and when it succeeds the payload cache file is
written (the serialized bytes being the only write — in particular no
checksum marker) and the transform of the raw bytes is returned. -/
theorem checksum_failure_not_fatal {R : Type} {cacheRoot : String} {w : World}
    {j : Job R} {c : CacheConfig} {e0 : List Event} {b sb : Buffer} {v : R}
    (out0 : DownloadOut)
    (hc : j.cache = some c)
    (h0 : checksumFetch w c.checksumJob = (.ok none, e0))
    (hg : w.get j.uri = .ok b)
    (hser : applyOpt c.serializer b = .ok sb)
    (htr : j.transformer b = .ok v) :
    (downloadE cacheRoot w j out0).1 =
      .ok (some v,
        { cachePath := some (joinPath cacheRoot j.id), checksum := none }) ∧
    Event.log .error "Downloading" ∈ (downloadE cacheRoot w j out0).2 ∧
    Event.get j.uri ∈ (downloadE cacheRoot w j out0).2 ∧
    writesOf (downloadE cacheRoot w j out0).2 =
      [.fsWrite (joinPath cacheRoot j.id) sb] := by
  obtain ⟨ec, hcp, hecw⟩ := cachePhase_checksum_none w c (joinPath cacheRoot j.id)
    (joinPath cacheRoot (j.id ++ c.checksumExtension)) j.transformer h0
  obtain ⟨ef, hfp, hefw, hefget⟩ := fetchPhase_success_checksum_none w j.uri
    j.transformer c (joinPath cacheRoot j.id)
    (joinPath cacheRoot (j.id ++ c.checksumExtension)) hg hser htr
  have he0w : writesOf e0 = [] := by
    have := checksumFetch_noWrites w c.checksumJob
    rw [h0] at this
    exact this
  have he0log : Event.log .error "Downloading" ∈ e0 := checksumFetch_none_logs h0
  rw [downloadE, hc]
  refine ⟨?_, ?_, ?_, ?_⟩
  · simp [hcp, hfp, ebind, pureE]
  · simp only [hcp, hfp, ebind, pureE]
    simp [he0log]
  · simp only [hcp, hfp, ebind, pureE]
    simp [hefget]
  · simp only [hcp, hfp, ebind, pureE]
    simp [writesOf_append, he0w, hecw, hefw]

theorem checksum_failure_not_fatal_witness :
    (downloadE "root" worldCsFail jobA {}).1 =
      .ok (some "FRESH",
        { cachePath := some (joinPath "root" "a"), checksum := none }) ∧
    Event.log .error "Downloading" ∈ (downloadE "root" worldCsFail jobA {}).2 ∧
    Event.get jobA.uri ∈ (downloadE "root" worldCsFail jobA {}).2 ∧
    writesOf (downloadE "root" worldCsFail jobA {}).2 =
      [.fsWrite (joinPath "root" "a") "FRESH"] :=
  checksum_failure_not_fatal {} rfl rfl rfl rfl rfl

theorem unlinksOf_ebind {α β : Type} {x : EM α} {f : α → EM β}
    (hx : unlinksOf x.2 = []) (hf : ∀ a, unlinksOf (f a).2 = []) :
    unlinksOf (ebind x f).2 = [] := by
  obtain ⟨x1, evs⟩ := x
  cases x1 with
  | ok a => simp only [ebind]; simp [unlinksOf_append, hx, hf a] at *
  | error e => exact hx

theorem unlinksOf_tcatch {α : Type} {x : EM α} {h : FsErr → EM α}
    (hx : unlinksOf x.2 = []) (hh : ∀ e, unlinksOf (h e).2 = []) :
    unlinksOf (tcatch x h).2 = [] := by
  obtain ⟨x1, evs⟩ := x
  cases x1 with
  | ok a => exact hx
  | error e => simp only [tcatch]; simp [unlinksOf_append, hx, hh e] at *

/-- The fetch phase never unlinks a file. -/
theorem fetchPhase_noUnlinks {R : Type} (w : World) (uri : String)
    (tr : Buffer → Except FsErr R) (ci : Option (CacheConfig × String × String))
    (cs : Option String) : unlinksOf (fetchPhase w uri tr ci cs).2 = [] := by
  unfold fetchPhase
  refine unlinksOf_tcatch ?_ ?_
  · refine unlinksOf_ebind rfl ?_
    intro buffer
    refine unlinksOf_ebind ?_ ?_
    · cases ci with
      | none => rfl
      | some info =>
        obtain ⟨c, cp, ccp⟩ := info
        refine unlinksOf_ebind ?_ ?_
        · cases cs with
          | none => rfl
          | some s =>
            by_cases hs : s = ""
            · simp [hs, pureE, unlinksOf]
            · simp only [hs, if_pos, ne_eq, not_false_eq_true]
              refine unlinksOf_tcatch ?_ ?_
              · rfl
              · intro _
                rfl
        · intro _
          refine unlinksOf_tcatch ?_ ?_
          · exact unlinksOf_ebind rfl fun _ => rfl
          · intro _
            rfl
    · intro _
      refine unlinksOf_ebind rfl ?_
      intro _
      exact unlinksOf_ebind rfl fun _ => rfl
  · intro e
    refine unlinksOf_ebind rfl ?_
    intro _
    cases ci with
    | none => rfl
    | some info =>
      obtain ⟨c, cp, ccp⟩ := info
      refine unlinksOf_tcatch ?_ ?_
      · refine unlinksOf_ebind rfl ?_
        intro _
        refine unlinksOf_ebind rfl ?_
        intro _
        refine unlinksOf_ebind rfl ?_
        intro _
        exact unlinksOf_ebind rfl fun _ => rfl
      · intro _
        exact unlinksOf_ebind rfl fun _ => rfl

theorem not_mem_of_unlinksOf_nil {evs : List Event} {p : String}
    (h : unlinksOf evs = []) : Event.fsUnlink p ∉ evs := by
  intro hmem
  have hin : Event.fsUnlink p ∈ unlinksOf evs := List.mem_filter.mpr ⟨hmem, rfl⟩
  rw [h] at hin
  cases hin

/-- Every run of the fetch phase invokes the low-level transport for its
URI. -/
theorem get_mem_fetchPhase {R : Type} (w : World) (uri : String)
    (tr : Buffer → Except FsErr R) (ci : Option (CacheConfig × String × String))
    (cs : Option String) : Event.get uri ∈ (fetchPhase w uri tr ci cs).2 := by
  unfold fetchPhase
  apply mem_tcatch_left
  apply mem_ebind_left
  simp [getOp]

/-- Dangling marker: the fresh checksum matches the stored marker but the
payload read fails.  The cache phase does not hit, and it unlinks the marker
exactly when the payload failure is ENOENT. -/
theorem cachePhase_dangling {R : Type} {w : World} {c : CacheConfig}
    {cp ccp : String} (tr : Buffer → Except FsErr R) {cb mb : Buffer}
    {s : String} {ep : FsErr}
    (hg : w.get c.checksumJob.uri = .ok cb)
    (ht : c.checksumJob.transformer cb = .ok s)
    (hm : w.readFile ccp = .ok mb)
    (hmark : readMarker mb = s)
    (hp : w.readFile cp = .error ep) :
    ∃ ec, cachePhase w c cp ccp tr = (.ok (some s, none), ec) ∧
      ((Event.fsUnlink ccp ∈ ec) ↔ isEnoent ep = true) := by
  cases he : isEnoent ep with
  | true =>
    cases hu : w.unlink ccp with
    | ok u =>
      refine ⟨[.get c.checksumJob.uri, .log .info "Downloaded", .fsRead ccp,
        .fsRead cp, .log .error "Loading cached file", .fsUnlink ccp], ?_, by simp [he]⟩
      simp [cachePhase, checksumFetch_pos hg ht, ebind, tcatch, readFileOp, unlinkOp,
        logE, pureE, liftE, hm, hmark, checksumMatches, hp, he, hu]
    | error e2 =>
      refine ⟨[.get c.checksumJob.uri, .log .info "Downloaded", .fsRead ccp,
        .fsRead cp, .log .error "Loading cached file", .fsUnlink ccp,
        .log .error "Removing invalid cache checksum"], ?_, by simp [he]⟩
      simp [cachePhase, checksumFetch_pos hg ht, ebind, tcatch, readFileOp, unlinkOp,
        logE, pureE, liftE, hm, hmark, checksumMatches, hp, he, hu]
  | false =>
    refine ⟨[.get c.checksumJob.uri, .log .info "Downloaded", .fsRead ccp,
      .fsRead cp, .log .error "Loading cached file"], ?_, by simp [he]⟩
    simp [cachePhase, checksumFetch_pos hg ht, ebind, tcatch, readFileOp, unlinkOp,
      logE, pureE, liftE, hm, hmark, checksumMatches, hp, he]

/-- C5. For every cached job, if the fetched checksum matches the stored
marker but reading the cached payload fails, `download` deletes the marker
file exactly when the payload failure is ENOENT (for every behaviour of the
unlink itself, which may fail), and in all such payload-failure cases falls
through to the real transport fetch rather than returning. -/
theorem dangling_marker_cleanup {R : Type} {cacheRoot : String} {w : World}
    {j : Job R} {c : CacheConfig} {cb mb : Buffer} {s : String} {ep : FsErr}
    (out0 : DownloadOut)
    (hc : j.cache = some c)
    (hg : w.get c.checksumJob.uri = .ok cb)
    (ht : c.checksumJob.transformer cb = .ok s)
    (hm : w.readFile (joinPath cacheRoot (j.id ++ c.checksumExtension)) = .ok mb)
    (hmark : readMarker mb = s)
    (hp : w.readFile (joinPath cacheRoot j.id) = .error ep) :
    ((Event.fsUnlink (joinPath cacheRoot (j.id ++ c.checksumExtension)) ∈
        (downloadE cacheRoot w j out0).2) ↔ isEnoent ep = true) ∧
    Event.get j.uri ∈ (downloadE cacheRoot w j out0).2 := by
  obtain ⟨ec, hcp, hiff⟩ := cachePhase_dangling j.transformer hg ht hm hmark hp
  obtain ⟨v', fevs, hfp⟩ := fetchPhase_emOk w j.uri j.transformer
    (some (c, joinPath cacheRoot j.id, joinPath cacheRoot (j.id ++ c.checksumExtension)))
    (some s)
  have hnu : Event.fsUnlink (joinPath cacheRoot (j.id ++ c.checksumExtension)) ∉ fevs := by
    have h1 := fetchPhase_noUnlinks w j.uri j.transformer
      (some (c, joinPath cacheRoot j.id,
        joinPath cacheRoot (j.id ++ c.checksumExtension))) (some s)
    rw [hfp] at h1
    exact not_mem_of_unlinksOf_nil h1
  have hget : Event.get j.uri ∈ fevs := by
    have h1 := get_mem_fetchPhase w j.uri j.transformer
      (some (c, joinPath cacheRoot j.id,
        joinPath cacheRoot (j.id ++ c.checksumExtension))) (some s)
    rw [hfp] at h1
    exact h1
  rw [downloadE, hc]
  constructor
  · simp only [hcp, hfp, ebind, pureE]
    simp [List.mem_append, hnu, hiff]
  · simp only [hcp, hfp, ebind, pureE]
    simp [List.mem_append, hget]

theorem dangling_marker_cleanup_witness :
    ((Event.fsUnlink (joinPath "root" ("a" ++ ".cache")) ∈
        (downloadE "root" worldDangling jobA {}).2) ↔ isEnoent .enoent = true) ∧
    Event.get jobA.uri ∈ (downloadE "root" worldDangling jobA {}).2 :=
  @dangling_marker_cleanup String "root" worldDangling jobA cacheA "abc" "abc\n"
    "abc" .enoent {} rfl rfl rfl rfl rfl rfl

/-- Successful cached fetch: for every behaviour of the two cache writes
(each may fail independently), the marker write is attempted exactly for a
truthy checksum with the checksum-plus-newline content, the payload write is
attempted with the serialized bytes, and the value returned is the transform
of the raw downloaded bytes. -/
theorem fetchPhase_success {R : Type} (w : World) (uri : String)
    (tr : Buffer → Except FsErr R) (c : CacheConfig) (cp ccp : String)
    (cs : Option String) {b sb : Buffer} {v : R}
    (hg : w.get uri = .ok b)
    (hser : applyOpt c.serializer b = .ok sb)
    (htr : tr b = .ok v) :
    (fetchPhase w uri tr (some (c, cp, ccp)) cs).1 = .ok (some v) ∧
    (∀ s, cs = some s → s ≠ "" →
      Event.fsWrite ccp (markerContent s) ∈ (fetchPhase w uri tr (some (c, cp, ccp)) cs).2) ∧
    Event.fsWrite cp sb ∈ (fetchPhase w uri tr (some (c, cp, ccp)) cs).2 := by
  cases cs with
  | none =>
    obtain ⟨ef, hx, hw, hmem⟩ := fetchPhase_success_checksum_none w uri tr c cp ccp hg hser htr
    have hmemw : Event.fsWrite cp sb ∈ ef := by
      have hin : Event.fsWrite cp sb ∈ writesOf ef := by rw [hw]; simp
      exact List.mem_of_mem_filter hin
    rw [hx]
    refine ⟨rfl, ?_, hmemw⟩
    intro s hs hne
    exact Option.noConfusion hs
  | some s =>
    by_cases hs : s = ""
    · subst hs
      cases hw2 : w.writeFile cp sb with
      | ok u =>
        have hx : fetchPhase w uri tr (some (c, cp, ccp)) (some "") =
            (.ok (some v), [.get uri, .fsWrite cp sb, .log .info "Downloaded"]) := by
          simp [fetchPhase, ebind, tcatch, getOp, writeFileOp, logE, pureE, liftE,
            hg, hser, htr, hw2]
        rw [hx]
        refine ⟨rfl, ?_, by simp⟩
        intro s' hs' hne
        cases hs'
        exact absurd rfl hne
      | error e2 =>
        have hx : fetchPhase w uri tr (some (c, cp, ccp)) (some "") =
            (.ok (some v), [.get uri, .fsWrite cp sb, .log .error "Caching file",
              .log .info "Downloaded"]) := by
          simp [fetchPhase, ebind, tcatch, getOp, writeFileOp, logE, pureE, liftE,
            hg, hser, htr, hw2]
        rw [hx]
        refine ⟨rfl, ?_, by simp⟩
        intro s' hs' hne
        cases hs'
        exact absurd rfl hne
    · cases hw1 : w.writeFile ccp (markerContent s) with
      | ok u =>
        cases hw2 : w.writeFile cp sb with
        | ok u2 =>
          have hx : fetchPhase w uri tr (some (c, cp, ccp)) (some s) =
              (.ok (some v), [.get uri, .fsWrite ccp (markerContent s), .fsWrite cp sb,
                .log .info "Downloaded"]) := by
            simp [fetchPhase, ebind, tcatch, getOp, writeFileOp, logE, pureE, liftE,
              hg, hser, htr, hw1, hw2, hs]
          rw [hx]
          refine ⟨rfl, ?_, by simp⟩
          intro s' hs' hne
          cases hs'
          simp
        | error e2 =>
          have hx : fetchPhase w uri tr (some (c, cp, ccp)) (some s) =
              (.ok (some v), [.get uri, .fsWrite ccp (markerContent s), .fsWrite cp sb,
                .log .error "Caching file", .log .info "Downloaded"]) := by
            simp [fetchPhase, ebind, tcatch, getOp, writeFileOp, logE, pureE, liftE,
              hg, hser, htr, hw1, hw2, hs]
          rw [hx]
          refine ⟨rfl, ?_, by simp⟩
          intro s' hs' hne
          cases hs'
          simp
      | error e1 =>
        cases hw2 : w.writeFile cp sb with
        | ok u2 =>
          have hx : fetchPhase w uri tr (some (c, cp, ccp)) (some s) =
              (.ok (some v), [.get uri, .fsWrite ccp (markerContent s),
                .log .error "Saving cache checksum", .fsWrite cp sb,
                .log .info "Downloaded"]) := by
            simp [fetchPhase, ebind, tcatch, getOp, writeFileOp, logE, pureE, liftE,
              hg, hser, htr, hw1, hw2, hs]
          rw [hx]
          refine ⟨rfl, ?_, by simp⟩
          intro s' hs' hne
          cases hs'
          simp
        | error e2 =>
          have hx : fetchPhase w uri tr (some (c, cp, ccp)) (some s) =
              (.ok (some v), [.get uri, .fsWrite ccp (markerContent s),
                .log .error "Saving cache checksum", .fsWrite cp sb,
                .log .error "Caching file", .log .info "Downloaded"]) := by
            simp [fetchPhase, ebind, tcatch, getOp, writeFileOp, logE, pureE, liftE,
              hg, hser, htr, hw1, hw2, hs]
          rw [hx]
          refine ⟨rfl, ?_, by simp⟩
          intro s' hs' hne
          cases hs'
          simp

/-- C6. For every cached job that reaches a successful real transport fetch
(the cache phase resolved checksum `cs` and did not hit), the value returned
is the transformer applied to the original raw downloaded bytes — never to
the serializer's or deserializer's output — for every behaviour of the two
cache writes; the marker write (checksum plus newline) is attempted exactly
for a truthy checksum and the payload write (serialized bytes) is attempted
independently, neither failure changing the returned value. -/
theorem fetch_success_transforms_raw {R : Type} {cacheRoot : String} {w : World}
    {j : Job R} {c : CacheConfig} {cs : Option String} {ec : List Event}
    {b sb : Buffer} {v : R} (out0 : DownloadOut)
    (hc : j.cache = some c)
    (hcp : cachePhase w c (joinPath cacheRoot j.id)
      (joinPath cacheRoot (j.id ++ c.checksumExtension)) j.transformer =
        (.ok (cs, none), ec))
    (hg : w.get j.uri = .ok b)
    (hser : applyOpt c.serializer b = .ok sb)
    (htr : j.transformer b = .ok v) :
    (downloadE cacheRoot w j out0).1 =
      .ok (some v,
        { cachePath := some (joinPath cacheRoot j.id), checksum := cs }) ∧
    (∀ s, cs = some s → s ≠ "" →
      Event.fsWrite (joinPath cacheRoot (j.id ++ c.checksumExtension)) (markerContent s)
        ∈ (downloadE cacheRoot w j out0).2) ∧
    Event.fsWrite (joinPath cacheRoot j.id) sb ∈ (downloadE cacheRoot w j out0).2 := by
  obtain ⟨h1, h2, h3⟩ := fetchPhase_success w j.uri j.transformer c
    (joinPath cacheRoot j.id) (joinPath cacheRoot (j.id ++ c.checksumExtension))
    cs hg hser htr
  obtain ⟨v2, fevs, hfp⟩ := fetchPhase_emOk w j.uri j.transformer
    (some (c, joinPath cacheRoot j.id, joinPath cacheRoot (j.id ++ c.checksumExtension)))
    cs
  rw [hfp] at h1 h2 h3
  have hv : v2 = some v := by simpa using h1
  subst hv
  rw [downloadE, hc]
  refine ⟨?_, ?_, ?_⟩
  · simp [hcp, hfp, ebind, pureE]
  · intro s hs hne
    simp only [hcp, hfp, ebind, pureE]
    simp [List.mem_append, h2 s hs hne]
  · simp only [hcp, hfp, ebind, pureE]
    simp [List.mem_append, h3]

theorem fetch_success_transforms_raw_witness :
    (downloadE "root" worldMiss jobA {}).1 =
      .ok (some "FRESH",
        { cachePath := some (joinPath "root" "a"), checksum := some "abc" }) ∧
    (∀ s, (some "abc" : Option String) = some s → s ≠ "" →
      Event.fsWrite (joinPath "root" ("a" ++ ".cache")) (markerContent s)
        ∈ (downloadE "root" worldMiss jobA {}).2) ∧
    Event.fsWrite (joinPath "root" "a") "FRESH" ∈ (downloadE "root" worldMiss jobA {}).2 :=
  @fetch_success_transforms_raw String "root" worldMiss jobA cacheA (some "abc")
    [.get "https://cs", .log .info "Downloaded", .fsRead "root/a.cache"]
    "FRESH" "FRESH" "FRESH" {} rfl rfl rfl rfl rfl

theorem getsOf_append (a b : List Event) :
    getsOf (a ++ b) = getsOf a ++ getsOf b := List.filter_append a b

theorem getsOf_ebind {α β : Type} {x : EM α} {f : α → EM β} {L : List Event}
    (hx : getsOf x.2 = L) (hf : ∀ a, getsOf (f a).2 = []) :
    getsOf (ebind x f).2 = L := by
  obtain ⟨x1, evs⟩ := x
  cases x1 with
  | ok a =>
    simp only [ebind]
    rw [getsOf_append, hf a, List.append_nil]
    exact hx
  | error e => exact hx

theorem getsOf_tcatch {α : Type} {x : EM α} {h : FsErr → EM α} {L : List Event}
    (hx : getsOf x.2 = L) (hh : ∀ e, getsOf (h e).2 = []) :
    getsOf (tcatch x h).2 = L := by
  obtain ⟨x1, evs⟩ := x
  cases x1 with
  | ok a => exact hx
  | error e =>
    simp only [tcatch]
    rw [getsOf_append, hh e, List.append_nil]
    exact hx

/-- Every run of the fetch phase performs exactly one transport get, for its
own URI. -/
theorem fetchPhase_getsOf {R : Type} (w : World) (uri : String)
    (tr : Buffer → Except FsErr R) (ci : Option (CacheConfig × String × String))
    (cs : Option String) : getsOf (fetchPhase w uri tr ci cs).2 = [.get uri] := by
  unfold fetchPhase
  refine getsOf_tcatch ?_ ?_
  · refine getsOf_ebind rfl ?_
    intro buffer
    refine getsOf_ebind ?_ ?_
    · cases ci with
      | none => rfl
      | some info =>
        obtain ⟨c, cp, ccp⟩ := info
        refine getsOf_ebind ?_ ?_
        · cases cs with
          | none => rfl
          | some s =>
            by_cases hs : s = ""
            · simp [hs, pureE, getsOf]
            · simp only [hs, if_pos, ne_eq, not_false_eq_true]
              refine getsOf_tcatch ?_ ?_
              · rfl
              · intro _
                rfl
        · intro _
          refine getsOf_tcatch ?_ ?_
          · exact getsOf_ebind rfl fun _ => rfl
          · intro _
            rfl
    · intro _
      refine getsOf_ebind rfl ?_
      intro _
      exact getsOf_ebind rfl fun _ => rfl
  · intro e
    refine getsOf_ebind rfl ?_
    intro _
    cases ci with
    | none => rfl
    | some info =>
      obtain ⟨c, cp, ccp⟩ := info
      refine getsOf_tcatch ?_ ?_
      · refine getsOf_ebind rfl ?_
        intro _
        refine getsOf_ebind rfl ?_
        intro _
        refine getsOf_ebind rfl ?_
        intro _
        exact getsOf_ebind rfl fun _ => rfl
      · intro _
        exact getsOf_ebind rfl fun _ => rfl

/-- The cache phase performs exactly one transport get: the checksum job's. -/
theorem cachePhase_getsOf {R : Type} (w : World) (c : CacheConfig)
    (cp ccp : String) (tr : Buffer → Except FsErr R) :
    getsOf (cachePhase w c cp ccp tr).2 = [.get c.checksumJob.uri] := by
  unfold cachePhase
  refine getsOf_tcatch ?_ ?_
  · refine getsOf_ebind ?_ ?_
    · exact fetchPhase_getsOf w c.checksumJob.uri c.checksumJob.transformer none none
    · intro checksum
      refine getsOf_ebind ?_ ?_
      · refine getsOf_tcatch ?_ ?_
        · refine getsOf_ebind rfl ?_
          intro markerBuf
          split
          · refine getsOf_tcatch ?_ ?_
            · refine getsOf_ebind rfl ?_
              intro _
              refine getsOf_ebind rfl ?_
              intro _
              refine getsOf_ebind rfl ?_
              intro _
              exact getsOf_ebind rfl fun _ => rfl
            · intro e
              refine getsOf_ebind rfl ?_
              intro _
              refine getsOf_ebind ?_ ?_
              · split
                · refine getsOf_tcatch ?_ ?_
                  · rfl
                  · intro _
                    rfl
                · rfl
              · intro _
                rfl
          · rfl
        · intro e
          refine getsOf_ebind ?_ ?_
          · split
            · rfl
            · rfl
          · intro _
            rfl
      · intro hit
        rfl
  · intro e
    exact getsOf_ebind rfl fun _ => rfl

theorem countGets_ebind_le {α β : Type} {x : EM α} {f : α → EM β} {m n : Nat}
    (hx : countGets x.2 ≤ m) (hf : ∀ a, countGets (f a).2 ≤ n) :
    countGets (ebind x f).2 ≤ m + n := by
  obtain ⟨x1, evs⟩ := x
  cases x1 with
  | ok a =>
    simp only [ebind, countGets, getsOf, List.filter_append, List.length_append]
    exact Nat.add_le_add hx (hf a)
  | error e => exact Nat.le_trans hx (Nat.le_add_right m n)

/-- C9. `download` terminates with recursion depth at most one: the nested
checksum job structurally carries no cache policy, so running it through the
full `download` is exactly the no-cache checksum fetch (no further nesting),
and every `download` call performs at most two transport gets (one for the
checksum job, one for the payload). -/
theorem download_recursion_depth_one :
    (∀ (cacheRoot : String) (w : World) (id : String) (cj : ChecksumJob)
        (out0 : DownloadOut),
      downloadE cacheRoot w (checksumAsJob id cj) out0 =
        ebind (checksumFetch w cj) fun v => pureE (v, out0)) ∧
    (∀ (R : Type) (cacheRoot : String) (w : World) (j : Job R)
        (out0 : DownloadOut),
      countGets (downloadE cacheRoot w j out0).2 ≤ 2) := by
  constructor
  · intro cacheRoot w id cj out0
    rfl
  · intro R cacheRoot w j out0
    cases hc : j.cache with
    | none =>
      have h1 : getsOf (downloadE cacheRoot w j out0).2 = [.get j.uri] := by
        rw [downloadE, hc]
        exact getsOf_ebind (fetchPhase_getsOf w j.uri j.transformer none none)
          fun _ => rfl
      simp [countGets, h1]
    | some c =>
      simp only [downloadE, hc]
      refine Nat.le_trans (countGets_ebind_le (m := 1) (n := 1) ?_ ?_) (by simp)
      · have h1 := cachePhase_getsOf w c (joinPath cacheRoot j.id)
          (joinPath cacheRoot (j.id ++ c.checksumExtension)) j.transformer
        simp [countGets, h1]
      · intro r
        cases hr : r.2 with
        | some v => simp [hr, pureE, countGets, getsOf]
        | none =>
          have h2 : getsOf (ebind (fetchPhase w j.uri j.transformer
                (some (c, joinPath cacheRoot j.id,
                  joinPath cacheRoot (j.id ++ c.checksumExtension))) r.1)
                (fun v => pureE (v,
                  (⟨some (joinPath cacheRoot j.id), r.1⟩ : DownloadOut)))).2 =
              [Event.get j.uri] :=
            getsOf_ebind (fetchPhase_getsOf _ _ _ _ _) fun _ => rfl
          simp only [hr]
          simp [countGets, h2]

theorem fetchPhase_nocache_success {R : Type} (w : World) (uri : String)
    (tr : Buffer → Except FsErr R) {b : Buffer} {v : R}
    (hg : w.get uri = .ok b) (htr : tr b = .ok v) :
    fetchPhase w uri tr none none =
      (.ok (some v), [.get uri, .log .info "Downloaded"]) := by
  simp [fetchPhase, ebind, tcatch, getOp, logE, pureE, liftE, hg, htr]

theorem fetchPhase_nocache_trFail {R : Type} (w : World) (uri : String)
    (tr : Buffer → Except FsErr R) {b : Buffer} {e : FsErr}
    (hg : w.get uri = .ok b) (htr : tr b = .error e) :
    fetchPhase w uri tr none none =
      (.ok none, [.get uri, .log .info "Downloaded", .log .error "Downloading"]) := by
  simp [fetchPhase, ebind, tcatch, getOp, logE, pureE, liftE, hg, htr]

theorem fetchPhase_nocache_getFail {R : Type} (w : World) (uri : String)
    (tr : Buffer → Except FsErr R) {e : FsErr}
    (hg : w.get uri = .error e) :
    fetchPhase w uri tr none none =
      (.ok none, [.get uri, .log .error "Downloading"]) := by
  simp [fetchPhase, ebind, tcatch, getOp, logE, pureE, liftE, hg]

/-- C10. For every job without a cache policy, `download` performs no
cache-store reads, writes or deletions, returns with the `out` side channel
exactly as it was passed in (neither `out.cachePath` nor `out.checksum` is
assigned), and when the transport fails it returns `undefined` with no
stale-cache fallback. -/
theorem no_cache_frame {R : Type} {cacheRoot : String} {w : World} {j : Job R}
    (out0 : DownloadOut) (hc : j.cache = none) :
    (∃ v, (downloadE cacheRoot w j out0).1 = .ok (v, out0)) ∧
    (∀ p, Event.fsRead p ∉ (downloadE cacheRoot w j out0).2) ∧
    (∀ p b2, Event.fsWrite p b2 ∉ (downloadE cacheRoot w j out0).2) ∧
    (∀ p, Event.fsUnlink p ∉ (downloadE cacheRoot w j out0).2) ∧
    (∀ e, w.get j.uri = .error e →
      (downloadE cacheRoot w j out0).1 = .ok (none, out0)) := by
  rw [downloadE, hc]
  cases hg : w.get j.uri with
  | ok b =>
    cases htr : j.transformer b with
    | ok v =>
      have hx := fetchPhase_nocache_success w j.uri j.transformer hg htr
      refine ⟨⟨some v, ?_⟩, ?_, ?_, ?_, ?_⟩
      · simp [hx, ebind, pureE]
      · intro p
        simp [hx, ebind, pureE]
      · intro p b2
        simp [hx, ebind, pureE]
      · intro p
        simp [hx, ebind, pureE]
      · intro e he
        cases he
    | error e2 =>
      have hx := fetchPhase_nocache_trFail w j.uri j.transformer hg htr
      refine ⟨⟨none, ?_⟩, ?_, ?_, ?_, ?_⟩
      · simp [hx, ebind, pureE]
      · intro p
        simp [hx, ebind, pureE]
      · intro p b2
        simp [hx, ebind, pureE]
      · intro p
        simp [hx, ebind, pureE]
      · intro e he
        simp [hx, ebind, pureE]
  | error e0 =>
    have hx := fetchPhase_nocache_getFail w j.uri j.transformer hg
    refine ⟨⟨none, ?_⟩, ?_, ?_, ?_, ?_⟩
    · simp [hx, ebind, pureE]
    · intro p
      simp [hx, ebind, pureE]
    · intro p b2
      simp [hx, ebind, pureE]
    · intro p
      simp [hx, ebind, pureE]
    · intro e he
      simp [hx, ebind, pureE]

theorem no_cache_frame_witness :
    (∃ v, (downloadE "root" worldDown jobPlain {}).1 = .ok (v, {})) ∧
    (∀ p, Event.fsRead p ∉ (downloadE "root" worldDown jobPlain {}).2) ∧
    (∀ p b2, Event.fsWrite p b2 ∉ (downloadE "root" worldDown jobPlain {}).2) ∧
    (∀ p, Event.fsUnlink p ∉ (downloadE "root" worldDown jobPlain {}).2) ∧
    (∀ e, worldDown.get jobPlain.uri = .error e →
      (downloadE "root" worldDown jobPlain {}).1 = .ok (none, {})) :=
  @no_cache_frame String "root" worldDown jobPlain {} rfl

/-- C8 (amended). The fixture transport returns the registered fixture's
bytes (a `Buffer` unchanged, a string UTF-8 encoded, an object UTF-8 JSON
encoded) for every registered fixture that is truthy, and throws the
"404 not found" error exactly when no fixture is registered for the URI or
the registered fixture is the empty string (which the JavaScript truthiness
check conflates with an absent entry). -/
theorem mock_get_spec (o : LowLevelDownloaderMockOptions) (uri : String) :
    (∀ fx, findFixture o.fixtures uri = some fx → fixtureTruthy fx = true →
      mockGet o uri = .ok (encodeFixture fx)) ∧
    (mockGet o uri = .error ("404 not found: " ++ uri) ↔
      (findFixture o.fixtures uri = none ∨
        findFixture o.fixtures uri = some (.str ""))) := by
  cases hf : findFixture o.fixtures uri with
  | none =>
    constructor
    · intro fx h
      exact Option.noConfusion h
    · simp [mockGet, hf]
  | some fx =>
    constructor
    · intro fx' h htruthy
      cases h
      simp [mockGet, hf, htruthy]
    · cases fx with
      | buffer b => simp [mockGet, hf, fixtureTruthy]
      | obj v => simp [mockGet, hf, fixtureTruthy]
      | str s =>
        by_cases hs : s = ""
        · subst hs
          simp [mockGet, hf, fixtureTruthy]
        · simp [mockGet, hf, fixtureTruthy, hs]

theorem mock_get_spec_witness :
    mockGet ⟨[("https://a", Fixture.obj (.obj [("foo", .str "bar")]))]⟩ "https://a" =
      .ok (encodeFixture (Fixture.obj (.obj [("foo", .str "bar")]))) :=
  (mock_get_spec ⟨[("https://a", Fixture.obj (.obj [("foo", .str "bar")]))]⟩
    "https://a").1 (Fixture.obj (.obj [("foo", .str "bar")])) rfl rfl

/-- C8 (counterexample). A fixture registered for a URI as the empty string
makes the mock throw the "404 not found" error even though a fixture is
registered, refuting the claim that the mock throws exactly when no fixture
is registered. -/
theorem mock_get_registered_but_throws :
    findFixture [("https://x", Fixture.str "")] "https://x" = some (.str "") ∧
    mockGet ⟨[("https://x", Fixture.str "")]⟩ "https://x" =
      .error ("404 not found: " ++ "https://x") :=
  ⟨rfl, rfl⟩
